import Mathlib

/-!
Verification of `rustls-split` (src/buffer.rs and src/lib.rs).

Bytes are modelled as `Nat`, byte slices as `List Nat`.  The fixed-size
backing allocation `Box<[u8]>` becomes a `List Nat` whose length is the
capacity.  Rust panics (failed `assert!`, out-of-bounds slicing) are
modelled by `Option`/`none`; `io::Result` becomes `Except ErrorKind`.

The TLS engine (`rustls::Connection`) and the transport (`TcpStream`)
are external collaborators: they are modelled by an oracle supplying
the result of every primitive call, indexed by the number of
interaction events that have happened so far.  Each half-level
operation of src/lib.rs is embedded as a function that threads a
system state (its own staging buffer, the lock flag, and a trace of
interaction events, each recorded together with whether the engine
lock was held at that moment).
-/

set_option autoImplicit false

namespace RustlsSplit

/-- Relevant `std::io::ErrorKind` values used by the crate. -/
inductive ErrorKind where
  | UnexpectedEof
  | ConnectionAborted
  | InvalidData
  | InvalidInput
  | Other
deriving DecidableEq, Repr

/-- `Shutdown` directions from `std::net`. -/
inductive Shutdown where
  | Read
  | Write
  | Both
deriving DecidableEq, Repr

/-! ## src/buffer.rs -/

/-- `BufCfg` (buffer.rs lines 3-6): seed data plus a requested minimum
capacity.  The `D: Into<Vec<u8>>` generic is instantiated at `List Nat`. -/
structure BufCfg where
  initial_data : List Nat
  min_capacity : Nat
deriving DecidableEq, Repr

/-- `BufCfg::with_capacity` (buffer.rs lines 10-15): empty seed. -/
def BufCfg.with_capacity (capacity : Nat) : BufCfg :=
  { initial_data := [], min_capacity := capacity }

/-- `BufCfg::with_data` (buffer.rs lines 21-26). -/
def BufCfg.with_data (initial_data : List Nat) (min_capacity : Nat) : BufCfg :=
  { initial_data := initial_data, min_capacity := min_capacity }

/-- `Internals` (buffer.rs lines 29-33): backing storage and the two
cursors.  `buf.length` is the capacity. -/
structure Internals where
  buf : List Nat
  start : Nat
  «end» : Nat
deriving DecidableEq, Repr

/-- Overwrite `buf[off .. off + data.length)` with `data`
(model of `copy_from_slice` into a subslice). -/
def setSegment (buf : List Nat) (off : Nat) (data : List Nat) : List Nat :=
  buf.take off ++ data ++ buf.drop (off + data.length)

/-- `Internals::build_from` (buffer.rs lines 36-50): the seed becomes
the initial content, `resize` pads with zeros up to `min_capacity`, and
the `assert_ne!(buf.len(), 0)` panic is modelled as `none`. -/
def Internals.build_from (cfg : BufCfg) : Option Internals :=
  let bufSeed := cfg.initial_data
  let e := bufSeed.length
  let buf :=
    if bufSeed.length < cfg.min_capacity then
      bufSeed ++ List.replicate (cfg.min_capacity - bufSeed.length) 0
    else bufSeed
  if buf.length = 0 then none
  else some { buf := buf, start := 0, «end» := e }

/-- `Internals::is_empty` (buffer.rs lines 52-54). -/
def Internals.is_empty (s : Internals) : Bool :=
  s.«end» == 0

/-- `Internals::is_full` (buffer.rs lines 56-58). -/
def Internals.is_full (s : Internals) : Bool :=
  s.«end» == s.buf.length

/-- `Internals::advance_start` (buffer.rs lines 60-67): advance the read
cursor; reset both cursors to 0 once everything pending is consumed. -/
def Internals.advance_start (s : Internals) (delta : Nat) : Internals :=
  let start := s.start + delta
  if start = s.«end» then { s with start := 0, «end» := 0 }
  else { s with start := start }

/-- The pending region `buf[start..end]` (valid data not yet drained). -/
def Internals.pending (s : Internals) : List Nat :=
  (s.buf.take s.«end»).drop s.start

/-- Core of `ReadBuffer::read_from` (buffer.rs lines 85-89): one
transport read into the free region `buf[end..]`.  The transport is
modelled by the chunk of bytes it delivers; a compliant `io::Read`
implementation returns at most the slice length, so the chunk is
truncated to the free capacity.  Returns the new state and
`bytes_read`. -/
def Internals.readFromCore (s : Internals) (chunk : List Nat) : Internals × Nat :=
  let delivered := chunk.take (s.buf.length - s.«end»)
  ({ s with buf := setSegment s.buf s.«end» delivered,
            «end» := s.«end» + delivered.length },
   delivered.length)

/-- Core of `<ReadBuffer as io::Read>::read` (buffer.rs lines 93-99),
the raw drain primitive: copy `min(pending, dstLen)` bytes from the
front of `buf[start..end]` and advance `start`. -/
def Internals.drainCore (s : Internals) (dstLen : Nat) : Internals × List Nat :=
  let src := s.pending
  let len := min src.length dstLen
  (s.advance_start len, src.take len)

/-- Core of `<WriteBuffer as io::Write>::write` (buffer.rs lines
130-136), the raw append primitive: copy `min(free, input.length)`
bytes to `buf[end..]` and advance `end`; returns the count (short
write). -/
def Internals.appendCore (s : Internals) (input : List Nat) : Internals × Nat :=
  let len := min (s.buf.length - s.«end») input.length
  ({ s with buf := setSegment s.buf s.«end» (input.take len),
            «end» := s.«end» + len },
   len)

/-- Core of `WriteBuffer::write_to` (buffer.rs lines 121-126): one
transport write draining `buf[start..end]`.  The transport is modelled
by the byte count it accepts; a compliant `io::Write` implementation
returns at most the slice length, so the count is truncated to the
pending length.  Returns the new state and `bytes_written`. -/
def Internals.writeToCore (s : Internals) (accepted : Nat) : Internals × Nat :=
  let n := min accepted (s.«end» - s.start)
  (s.advance_start n, n)

/-- `ReadBuffer::read_from` with its panic condition: slicing
`buf[end..]` panics unless `end ≤ buf.length`. -/
def ReadBuffer.read_from (s : Internals) (chunk : List Nat) :
    Option (Internals × Nat) :=
  if s.«end» ≤ s.buf.length then some (s.readFromCore chunk) else none

/-- `<ReadBuffer as io::Read>::read` with its panic condition: slicing
`buf[start..end]` panics unless `start ≤ end ≤ buf.length`. -/
def ReadBuffer.read (s : Internals) (dstLen : Nat) :
    Option (Internals × List Nat) :=
  if s.start ≤ s.«end» ∧ s.«end» ≤ s.buf.length then some (s.drainCore dstLen)
  else none

/-- `<WriteBuffer as io::Write>::write` with its panic condition:
slicing `buf[end..]` panics unless `end ≤ buf.length`. -/
def WriteBuffer.write (s : Internals) (input : List Nat) :
    Option (Internals × Nat) :=
  if s.«end» ≤ s.buf.length then some (s.appendCore input) else none

/-- `WriteBuffer::write_to` with its panic condition: slicing
`buf[start..end]` panics unless `start ≤ end ≤ buf.length`. -/
def WriteBuffer.write_to (s : Internals) (accepted : Nat) :
    Option (Internals × Nat) :=
  if s.start ≤ s.«end» ∧ s.«end» ≤ s.buf.length then
    some (s.writeToCore accepted)
  else none

/-- `<WriteBuffer as io::Write>::flush` (buffer.rs lines 138-140):
unconditionally `Err(io::ErrorKind::InvalidInput)`, no state change. -/
def WriteBuffer.flush (s : Internals) : Internals × Except ErrorKind Unit :=
  (s, Except.error ErrorKind.InvalidInput)

/-! ## Staging-buffer operation sequences (for the buffer invariant) -/

/-- One staging-buffer operation: the two transport-facing operations
and the two engine-facing raw primitives. -/
inductive BufOp where
  | read_from (chunk : List Nat)
  | write_to (accepted : Nat)
  | append (input : List Nat)
  | drain (dstLen : Nat)
deriving DecidableEq, Repr

/-- Execute one operation, propagating panics as `none`. -/
def stepOp (s : Internals) : BufOp → Option Internals
  | .read_from chunk => (ReadBuffer.read_from s chunk).map (·.1)
  | .write_to accepted => (WriteBuffer.write_to s accepted).map (·.1)
  | .append input => (WriteBuffer.write s input).map (·.1)
  | .drain dstLen => (ReadBuffer.read s dstLen).map (·.1)

/-- Buffer states reachable from a freshly constructed buffer by any
sequence of staging-buffer operations. -/
inductive Reachable : Internals → Prop where
  | init (cfg : BufCfg) (s : Internals) :
      Internals.build_from cfg = some s → Reachable s
  | step (s : Internals) (op : BufOp) (s' : Internals) :
      Reachable s → stepOp s op = some s' → Reachable s'

/-! ## src/lib.rs -/

/-- One interaction with an external collaborator: the engine lock, the
transport, or the engine itself. -/
inductive EvKind where
  | lockAcq
  | lockRel
  | tRead
  | tWrite
  | tShutdown (how : Shutdown)
  | eWantsRead
  | eReadTls
  | eProcess
  | eReaderRead
  | eWantsWrite
  | eWriteTls
  | eWriterWrite
  | eWriterFlush
  | eCloseNotify
deriving DecidableEq, Repr

/-- State threaded through a half-level operation: the half's own
staging buffer, whether this half currently holds the engine lock, and
the trace of interaction events (each paired with the lock flag at the
moment it happened). -/
structure SysState where
  buf : Internals
  locked : Bool
  trace : List (EvKind × Bool)
deriving DecidableEq, Repr

/-- Record one interaction event. -/
def SysState.emit (s : SysState) (k : EvKind) : SysState :=
  { s with trace := s.trace ++ [(k, s.locked)] }

/-- The oracle clock: the number of events that have happened so far. -/
def SysState.clock (s : SysState) : Nat :=
  s.trace.length

/-- `shared.connection.lock().unwrap()`. -/
def SysState.lock (s : SysState) : SysState :=
  { s.emit EvKind.lockAcq with locked := true }

/-- Dropping the `MutexGuard`. -/
def SysState.unlock (s : SysState) : SysState :=
  { s.emit EvKind.lockRel with locked := false }

/-- Guard drop at a return point: only a live guard is dropped. -/
def SysState.unlockIf (s : SysState) : SysState :=
  if s.locked then s.unlock else s

/-- Behaviour of the external collaborators (`rustls::Connection` and
`TcpStream`), one function per primitive, indexed by the event clock at
the call.  `transportRead` yields the chunk a transport read delivers
(or an I/O error); `transportWrite` the byte count a transport write
accepts (or an I/O error); `read_tls` the engine's internal destination
size when it pulls from the staging buffer; `write_tls` the record
bytes the engine emits; `process_new_packets` whether processing fails;
`stream_shutdown` whether the transport shutdown fails. -/
structure Oracle where
  wants_read : Nat → Bool
  transportRead : Nat → Except ErrorKind (List Nat)
  read_tls : Nat → Nat
  process_new_packets : Nat → Bool
  reader_read : Nat → Except ErrorKind Nat
  wants_write : Nat → Bool
  transportWrite : Nat → Except ErrorKind Nat
  write_tls : Nat → List Nat
  writer_write : Nat → Except ErrorKind Nat
  writer_flush : Nat → Option ErrorKind
  stream_shutdown : Nat → Option ErrorKind

/-- How a protocol loop ended: normally, out of fuel (the model's bound
on iterations), or by propagating an error. -/
inductive LExit where
  | done
  | fuelout
  | fail (e : ErrorKind)
deriving DecidableEq, Repr

/-- The result match of `<ReadHalf as io::Read>::read` (lib.rs lines
49-57): zero plaintext bytes without the engine's clean-close signal
becomes `UnexpectedEof`; the engine's clean-close signal (surfaced by
rustls as a `ConnectionAborted` error from `reader().read`) becomes
ordinary end-of-input `Ok(0)`; everything else passes through. -/
def readResultAdjust (r : Except ErrorKind Nat) : Except ErrorKind Nat :=
  match r with
  | .ok 0 => .error ErrorKind.UnexpectedEof
  | .ok n => .ok n
  | .error e =>
    if e = ErrorKind.ConnectionAborted then .ok 0 else .error e

/-- lib.rs lines 29-39: if the staging buffer is empty, release the
lock, perform one transport read into it, re-acquire the lock, and
break out of the receive loop if the transport reported end-of-input.
Outcome: `some (some e)` = early `Err` return (lock already released),
`some none` = `break`, `none` = fall through to the loop body. -/
def readFill (o : Oracle) (s : SysState) : SysState × Option (Option ErrorKind) :=
  if s.buf.is_empty then
    let s1 := (s.unlock).emit EvKind.tRead
    match o.transportRead s1.clock with
    | .error e => (s1, some (some e))
    | .ok chunk =>
      let fr := s1.buf.readFromCore chunk
      let s2 := SysState.lock { s1 with buf := fr.1 }
      if fr.2 = 0 then (s2, some none) else (s2, none)
  else (s, none)

/-- lib.rs lines 41-46: `read_tls` drains the staging buffer into the
engine, then `process_new_packets` runs; a processing failure is
surfaced as an `InvalidData` error. -/
def readBody (o : Oracle) (s : SysState) : SysState × Option ErrorKind :=
  let s1 := s.emit EvKind.eReadTls
  let d := s1.buf.drainCore (o.read_tls s1.clock)
  let s2 := SysState.emit { s1 with buf := d.1 } EvKind.eProcess
  if o.process_new_packets s2.clock then (s2, some ErrorKind.InvalidData)
  else (s2, none)

/-- The receive loop of `<ReadHalf as io::Read>::read` (lib.rs lines
28-47): while the engine wants transport bytes, refill the staging
buffer from the transport when empty and feed it to the engine. -/
def readLoop (o : Oracle) : Nat → SysState → SysState × LExit
  | 0, s => (s, LExit.fuelout)
  | fuel + 1, s =>
    let s1 := s.emit EvKind.eWantsRead
    if o.wants_read s1.clock then
      match readFill o s1 with
      | (s2, some (some e)) => (s2, LExit.fail e)
      | (s2, some none) => (s2, LExit.done)
      | (s2, none) =>
        match readBody o s2 with
        | (s3, some e) => (s3, LExit.fail e)
        | (s3, none) => readLoop o fuel s3
    else (s1, LExit.done)

/-- `<ReadHalf as io::Read>::read` (lib.rs lines 25-58): acquire the
lock, run the receive loop, then read plaintext out of the engine and
adjust the result.  `none` = fuel ran out. -/
def ReadHalf.read (o : Oracle) (fuel : Nat) (buf0 : Internals) :
    SysState × Option (Except ErrorKind Nat) :=
  let s0 : SysState := { buf := buf0, locked := false, trace := [] }
  match readLoop o fuel s0.lock with
  | (s, LExit.fuelout) => (s, none)
  | (s, LExit.fail e) => (s.unlockIf, some (Except.error e))
  | (s, LExit.done) =>
    let s1 := s.emit EvKind.eReaderRead
    (s1.unlockIf, some (readResultAdjust (o.reader_read s1.clock)))

/-- `ReadHalf::shutdown` (lib.rs lines 62-64): forward the requested
direction straight to `stream.shutdown`; no lock, no engine call, no
buffer change. -/
def ReadHalf.shutdown (o : Oracle) (how : Shutdown) (buf0 : Internals) :
    SysState × Option ErrorKind :=
  let s0 : SysState := { buf := buf0, locked := false, trace := [] }
  let s1 := s0.emit (EvKind.tShutdown how)
  (s1, o.stream_shutdown s1.clock)

/-- lib.rs lines 92-98: while the staging buffer is full, release the
lock, perform one transport write draining it, re-acquire the lock. -/
def fullLoop (o : Oracle) : Nat → SysState → SysState × LExit
  | 0, s => (s, LExit.fuelout)
  | fuel + 1, s =>
    if s.buf.is_full then
      let s1 := (s.unlock).emit EvKind.tWrite
      match o.transportWrite s1.clock with
      | .error e => (s1, LExit.fail e)
      | .ok n => fullLoop o fuel (SysState.lock { s1 with buf := (s1.buf.writeToCore n).1 })
    else (s, LExit.done)

/-- `wants_write_loop` (lib.rs lines 86-104): while the engine has
transport bytes to emit, make room in the staging buffer (releasing the
lock around each transport write) and pull one `write_tls` worth of
engine output into it. -/
def wants_write_loop (o : Oracle) : Nat → SysState → SysState × LExit
  | 0, s => (s, LExit.fuelout)
  | fuel + 1, s =>
    let s1 := s.emit EvKind.eWantsWrite
    if o.wants_write s1.clock then
      match fullLoop o (fuel + 1) s1 with
      | (s2, LExit.fail e) => (s2, LExit.fail e)
      | (s2, LExit.fuelout) => (s2, LExit.fuelout)
      | (s2, LExit.done) =>
        let s3 := s2.emit EvKind.eWriteTls
        wants_write_loop o fuel { s3 with buf := (s3.buf.appendCore (o.write_tls s3.clock)).1 }
    else (s1, LExit.done)

/-- lib.rs lines 116-118: after the lock is dropped, physically drain
the staging buffer to the transport until it is empty. -/
def finalDrain (o : Oracle) : Nat → SysState → SysState × Option (Option ErrorKind)
  | 0, s => (s, none)
  | fuel + 1, s =>
    if s.buf.is_empty then (s, some none)
    else
      let s1 := s.emit EvKind.tWrite
      match o.transportWrite s1.clock with
      | .error e => (s1, some (some e))
      | .ok n => finalDrain o fuel { s1 with buf := (s1.buf.writeToCore n).1 }

/-- The free function `flush` (lib.rs lines 106-121), entered with the
lock held: flush the engine's plaintext-input buffering, run
`wants_write_loop`, drop the lock, then physically drain the staging
buffer.  Outcome: `none` = fuel ran out, `some none` = `Ok(())`,
`some (some e)` = `Err(e)`. -/
def flushFn (o : Oracle) (fuel : Nat) (s : SysState) :
    SysState × Option (Option ErrorKind) :=
  let s1 := s.emit EvKind.eWriterFlush
  match o.writer_flush s1.clock with
  | some e => (s1.unlockIf, some (some e))
  | none =>
    match wants_write_loop o fuel s1 with
    | (s2, LExit.fuelout) => (s2, none)
    | (s2, LExit.fail e) => (s2.unlockIf, some (some e))
    | (s2, LExit.done) => finalDrain o fuel s2.unlock

/-- `<WriteHalf as io::Write>::write` (lib.rs lines 124-128): acquire
the lock, run `wants_write_loop`, hand the plaintext to the engine. -/
def WriteHalf.write (o : Oracle) (fuel : Nat) (buf0 : Internals) :
    SysState × Option (Except ErrorKind Nat) :=
  let s0 : SysState := { buf := buf0, locked := false, trace := [] }
  match wants_write_loop o fuel s0.lock with
  | (s, LExit.fuelout) => (s, none)
  | (s, LExit.fail e) => (s.unlockIf, some (Except.error e))
  | (s, LExit.done) =>
    let s1 := s.emit EvKind.eWriterWrite
    (s1.unlockIf, some (o.writer_write s1.clock))

/-- `<WriteHalf as io::Write>::flush` (lib.rs lines 130-133). -/
def WriteHalf.flush (o : Oracle) (fuel : Nat) (buf0 : Internals) :
    SysState × Option (Option ErrorKind) :=
  let s0 : SysState := { buf := buf0, locked := false, trace := [] }
  flushFn o fuel s0.lock

/-- `WriteHalf::shutdown` (lib.rs lines 73-83): a read-only shutdown
goes straight to the transport; otherwise send close-notify, run the
flush logic, then always attempt the transport shutdown — whose error,
if any, is propagated by `?` in place of the saved flush result. -/
def WriteHalf.shutdown (o : Oracle) (fuel : Nat) (how : Shutdown) (buf0 : Internals) :
    SysState × Option (Option ErrorKind) :=
  let s0 : SysState := { buf := buf0, locked := false, trace := [] }
  if how = Shutdown.Read then
    let s1 := s0.emit (EvKind.tShutdown Shutdown.Read)
    (s1, some (o.stream_shutdown s1.clock))
  else
    let s2 := (s0.lock).emit EvKind.eCloseNotify
    match flushFn o fuel s2 with
    | (s3, none) => (s3, none)
    | (s3, some res) =>
      let s4 := s3.emit (EvKind.tShutdown how)
      match o.stream_shutdown s4.clock with
      | some e => (s4, some (some e))
      | none => (s4, some res)

/-- `split` (lib.rs lines 136-160): `assert!(!connection.is_handshaking())`
panics (`none`) on a mid-handshake engine, and each half's staging
buffer is built with `Buffer::build_from`, which panics on a
zero-capacity configuration.  The engine is abstracted to its
`is_handshaking` flag; the two returned buffers are the read half's and
the write half's. -/
def split (is_handshaking : Bool) (read_buf_cfg write_buf_cfg : BufCfg) :
    Option (Internals × Internals) :=
  if is_handshaking then none
  else
    match Internals.build_from read_buf_cfg, Internals.build_from write_buf_cfg with
    | some rb, some wb => some (rb, wb)
    | _, _ => none

/-- Transport I/O events (the blocking read/write calls). -/
def EvKind.isTransportCall : EvKind → Bool
  | EvKind.tRead => true
  | EvKind.tWrite => true
  | _ => false

/-- Engine interaction events. -/
def EvKind.isEngineOp : EvKind → Bool
  | EvKind.eWantsRead => true
  | EvKind.eReadTls => true
  | EvKind.eProcess => true
  | EvKind.eReaderRead => true
  | EvKind.eWantsWrite => true
  | EvKind.eWriteTls => true
  | EvKind.eWriterWrite => true
  | EvKind.eWriterFlush => true
  | EvKind.eCloseNotify => true
  | _ => false

/-- One event respects the lock discipline: a blocking transport I/O
call happens with the engine lock released, an engine interaction with
the engine lock held. -/
def evOK (p : EvKind × Bool) : Bool :=
  (!p.1.isTransportCall || !p.2) && (!p.1.isEngineOp || p.2)

/-- The lock discipline over a whole trace. -/
def lockDiscipline (tr : List (EvKind × Bool)) : Bool :=
  tr.all evOK

/-! ## Helper lemmas -/

theorem setSegment_length (buf : List Nat) (off : Nat) (data : List Nat)
    (h : off + data.length ≤ buf.length) :
    (setSegment buf off data).length = buf.length := by
  simp only [setSegment, List.length_append, List.length_take, List.length_drop]
  omega

theorem build_from_eq (cfg : BufCfg) :
    Internals.build_from cfg =
      (if cfg.initial_data.length = 0 ∧ cfg.min_capacity = 0 then none
       else some { buf := cfg.initial_data ++
                     List.replicate (cfg.min_capacity - cfg.initial_data.length) 0,
                   start := 0, «end» := cfg.initial_data.length }) := by
  simp only [Internals.build_from]
  rcases Nat.lt_or_ge cfg.initial_data.length cfg.min_capacity with h | h
  · rw [if_pos h]
    have h1 : ¬((cfg.initial_data ++
        List.replicate (cfg.min_capacity - cfg.initial_data.length) 0).length = 0) := by
      simp only [List.length_append, List.length_replicate]
      omega
    rw [if_neg h1, if_neg (fun hc => by rcases hc with ⟨hc1, hc2⟩; omega :
      ¬(cfg.initial_data.length = 0 ∧ cfg.min_capacity = 0))]
  · rw [if_neg (Nat.not_lt.mpr h)]
    have h0 : cfg.min_capacity - cfg.initial_data.length = 0 := by omega
    rw [h0]
    simp only [List.replicate_zero, List.append_nil, List.length_eq_zero]
    by_cases hz : cfg.initial_data = []
    · rw [if_pos hz, if_pos ⟨hz, by rw [hz] at h; exact Nat.le_zero.mp (by simpa using h)⟩]
    · rw [if_neg hz, if_neg (by tauto)]

theorem build_from_spec (cfg : BufCfg) (s : Internals)
    (h : Internals.build_from cfg = some s) :
    s.buf = cfg.initial_data ++
      List.replicate (cfg.min_capacity - cfg.initial_data.length) 0 ∧
    s.start = 0 ∧ s.«end» = cfg.initial_data.length ∧
    s.buf.length = max cfg.initial_data.length cfg.min_capacity := by
  rw [build_from_eq] at h
  by_cases hc : cfg.initial_data.length = 0 ∧ cfg.min_capacity = 0
  · rw [if_pos hc] at h
    exact absurd h (by simp)
  · rw [if_neg hc] at h
    cases h
    refine ⟨rfl, rfl, rfl, ?_⟩
    simp only [List.length_append, List.length_replicate]
    omega

theorem advance_start_buf (s : Internals) (d : Nat) :
    (s.advance_start d).buf = s.buf := by
  simp only [Internals.advance_start]
  split <;> rfl

theorem take_app_app (A B C : List Nat) (m l : Nat)
    (hm : m = A.length) (hl : l = B.length) :
    (A ++ (B ++ C)).take (m + l) = A ++ B := by
  subst hm hl
  rw [List.take_append, List.take_left]

/-! ## Claim C6 -/

/-- Claim C6: for every buffer configuration, the constructed staging
buffer's capacity equals `max(seed_length, requested_minimum)`;
`with_capacity n` yields capacity `n` and `with_data data n` yields
capacity `max data.length n`. -/
theorem buffer_capacity_max :
    (∀ cfg s, Internals.build_from cfg = some s →
      s.buf.length = max cfg.initial_data.length cfg.min_capacity) ∧
    (∀ n s, Internals.build_from (BufCfg.with_capacity n) = some s →
      s.buf.length = n) ∧
    (∀ data n s, Internals.build_from (BufCfg.with_data data n) = some s →
      s.buf.length = max data.length n) := by
  refine ⟨fun cfg s h => (build_from_spec cfg s h).2.2.2, ?_, ?_⟩
  · intro n s h
    have := (build_from_spec _ s h).2.2.2
    simpa [BufCfg.with_capacity] using this
  · intro data n s h
    exact (build_from_spec _ s h).2.2.2

/-- Witness for C6: a seeded configuration with a larger minimum. -/
theorem buffer_capacity_max_witness :
    (Internals.mk [7, 8, 0, 0] 0 2).buf.length = max [7, 8].length 4 :=
  buffer_capacity_max.2.2 [7, 8] 4 (Internals.mk [7, 8, 0, 0] 0 2) (by decide)

/-! ## Claim C9 -/

/-- Claim C9: a staging buffer constructed from seed bytes starts with
`start = 0`, `end = seed.length`, its pending region being exactly the
seed; the zero padding lies entirely in the free region, and a
subsequent raw append lands after the seed, so the pending region
becomes seed followed by the appended bytes. -/
theorem seeded_buffer_initial_state (data : List Nat) (n : Nat) (s : Internals)
    (h : Internals.build_from (BufCfg.with_data data n) = some s) :
    s.start = 0 ∧ s.«end» = data.length ∧
    s.pending = data ∧
    s.buf.take data.length = data ∧
    s.buf.drop data.length = List.replicate (s.buf.length - data.length) 0 ∧
    (∀ input t, WriteBuffer.write s input = some t →
      t.1.pending = data ++ input.take t.2) := by
  obtain ⟨hbuf, hstart, hend, hlen⟩ := build_from_spec _ s h
  simp only [BufCfg.with_data] at hbuf hend hlen
  have hdlen : data.length ≤ s.buf.length := by omega
  have htake : s.buf.take data.length = data := by
    rw [hbuf]
    exact List.take_left' rfl
  have hdrop : s.buf.drop data.length = List.replicate (s.buf.length - data.length) 0 := by
    have hcount : s.buf.length - data.length = n - data.length := by omega
    rw [hcount, hbuf, List.drop_left' rfl]
  refine ⟨hstart, hend, ?_, htake, hdrop, ?_⟩
  · simp only [Internals.pending, hstart, hend, List.drop_zero]
    exact htake
  · intro input t ht
    simp only [WriteBuffer.write] at ht
    rw [if_pos (by omega : s.«end» ≤ s.buf.length)] at ht
    cases ht
    simp only [Internals.appendCore, Internals.pending, List.drop_zero, hstart, hend,
      setSegment]
    have hlen2 : (input.take (min (s.buf.length - data.length) input.length)).length =
        min (s.buf.length - data.length) input.length := by
      simp only [List.length_take]
      omega
    rw [List.append_assoc, htake]
    exact take_app_app _ _ _ _ _ rfl hlen2.symm

/-- Witness for C9: seed `[7, 8]` with minimum capacity 4, then an
append of `[9, 9, 9]` (only 2 bytes fit). -/
theorem seeded_buffer_initial_state_witness :
    (Internals.mk [7, 8, 0, 0] 0 2).pending = [7, 8] ∧
    (Internals.mk [7, 8, 9, 9] 0 4).pending = [7, 8] ++ [9, 9, 9].take 2 := by
  have h := seeded_buffer_initial_state [7, 8] 4 (Internals.mk [7, 8, 0, 0] 0 2) (by decide)
  refine ⟨h.2.2.1, ?_⟩
  exact h.2.2.2.2.2 [9, 9, 9] (Internals.mk [7, 8, 9, 9] 0 4, 2) (by decide)

/-! ## Claim C10 -/

/-- Claim C10: the write-direction staging buffer's byte-sink `flush`
unconditionally returns an `InvalidInput` error and leaves the buffer
unchanged, for every buffer state. -/
theorem write_buffer_flush_always_error (s : Internals) :
    WriteBuffer.flush s = (s, Except.error ErrorKind.InvalidInput) :=
  rfl

/-! ## Claim C5 -/

/-- Claim C5: splitting with a still-handshaking engine panics, and
building a staging buffer panics exactly when the resulting capacity
would be zero (empty seed and zero requested minimum); otherwise
construction proceeds and returns the two halves — there is no
recoverable-error channel. -/
theorem split_construction_preconditions :
    (∀ c1 c2, split true c1 c2 = none) ∧
    (∀ cfg, Internals.build_from cfg = none ↔
      (cfg.initial_data = [] ∧ cfg.min_capacity = 0)) ∧
    (∀ c2, split false (BufCfg.with_data ([] : List Nat) 0) c2 = none) ∧
    (∀ c1 c2 rb wb, Internals.build_from c1 = some rb →
      Internals.build_from c2 = some wb → split false c1 c2 = some (rb, wb)) := by
  have hnone : ∀ cfg : BufCfg, Internals.build_from cfg = none ↔
      (cfg.initial_data = [] ∧ cfg.min_capacity = 0) := by
    intro cfg
    rw [build_from_eq]
    split_ifs with hc
    · simp only [true_iff]
      exact ⟨List.length_eq_zero.mp hc.1, hc.2⟩
    · simp only [reduceCtorEq, false_iff]
      intro hd
      exact hc ⟨by simp [hd.1], hd.2⟩
  refine ⟨fun c1 c2 => by simp [split], hnone, ?_, ?_⟩
  · intro c2
    have h0 : Internals.build_from (BufCfg.with_data ([] : List Nat) 0) = none := by
      rw [hnone]
      exact ⟨rfl, rfl⟩
    cases hb : Internals.build_from c2 <;> simp [split, h0, hb]
  · intro c1 c2 rb wb h1 h2
    simp [split, h1, h2]

/-- Witness for C5: a concrete panic on the mid-handshake flag, a
concrete zero-capacity panic, and a concrete successful construction. -/
theorem split_construction_preconditions_witness :
    split true (BufCfg.with_capacity 1) (BufCfg.with_capacity 1) = none ∧
    split false (BufCfg.with_data ([] : List Nat) 0) (BufCfg.with_capacity 1) = none ∧
    split false (BufCfg.with_capacity 1) (BufCfg.with_capacity 2) =
      some (Internals.mk [0] 0 0, Internals.mk [0, 0] 0 0) :=
  ⟨split_construction_preconditions.1 _ _,
   split_construction_preconditions.2.2.1 _,
   split_construction_preconditions.2.2.2 _ _ _ _ (by decide) (by decide)⟩

/-! ## Claim C7 -/

theorem pending_length (s : Internals) (h1 : s.start ≤ s.«end»)
    (h2 : s.«end» ≤ s.buf.length) :
    s.pending.length = s.«end» - s.start := by
  simp only [Internals.pending, List.length_drop, List.length_take]
  omega

/-- Claim C7: for every in-bounds buffer state, the raw append
primitive succeeds (no panic), writes exactly `min(free, input.length)`
bytes into the region starting at `end` and returns that count, leaving
the capacity and the already-pending bytes unchanged; the raw drain
primitive succeeds, copies exactly `min(pending, dstLen)` bytes from
the front of the valid region and returns them, touching no buffer
content. -/
theorem raw_append_drain_spec (s : Internals) (input : List Nat) (dstLen : Nat)
    (h1 : s.start ≤ s.«end») (h2 : s.«end» ≤ s.buf.length) :
    (WriteBuffer.write s input = some (s.appendCore input) ∧
      (s.appendCore input).2 = min (s.buf.length - s.«end») input.length ∧
      (s.appendCore input).1.buf.length = s.buf.length ∧
      (s.appendCore input).1.start = s.start ∧
      (s.appendCore input).1.«end» = s.«end» + (s.appendCore input).2 ∧
      (s.appendCore input).1.buf.take s.«end» = s.buf.take s.«end» ∧
      ((s.appendCore input).1.buf.drop s.«end»).take (s.appendCore input).2 =
        input.take (s.appendCore input).2) ∧
    (ReadBuffer.read s dstLen = some (s.drainCore dstLen) ∧
      (s.drainCore dstLen).2.length = min (s.«end» - s.start) dstLen ∧
      (s.drainCore dstLen).2 = s.pending.take (min (s.«end» - s.start) dstLen) ∧
      (s.drainCore dstLen).1.buf = s.buf) := by
  have hpl : s.pending.length = s.«end» - s.start := pending_length s h1 h2
  constructor
  · have htlen : (input.take (min (s.buf.length - s.«end») input.length)).length =
        min (s.buf.length - s.«end») input.length := by
      simp only [List.length_take]
      omega
    have hA : (s.buf.take s.«end»).length = s.«end» := by
      simp only [List.length_take]
      omega
    refine ⟨?_, rfl, ?_, rfl, rfl, ?_, ?_⟩
    · simp only [WriteBuffer.write, if_pos h2]
    · simp only [Internals.appendCore]
      rw [setSegment_length]
      omega
    · simp only [Internals.appendCore, setSegment, List.append_assoc]
      exact List.take_left' hA
    · simp only [Internals.appendCore, setSegment, List.append_assoc]
      rw [List.drop_left' hA]
      exact List.take_left' htlen
  · refine ⟨?_, ?_, ?_, ?_⟩
    · simp only [ReadBuffer.read, if_pos (And.intro h1 h2)]
    · simp only [Internals.drainCore, List.length_take]
      omega
    · simp only [Internals.drainCore, hpl]
    · simp only [Internals.drainCore]
      exact advance_start_buf _ _

/-- Witness for C7: append `[5, 6, 7]` to a buffer with 2 free bytes
and drain 1 byte from a buffer with 1 pending byte. -/
theorem raw_append_drain_spec_witness :
    (WriteBuffer.write (Internals.mk [7, 8, 0, 0] 1 2) [5, 6, 7] =
        some ((Internals.mk [7, 8, 0, 0] 1 2).appendCore [5, 6, 7]) ∧
      ((Internals.mk [7, 8, 0, 0] 1 2).appendCore [5, 6, 7]).2 = min 2 3) ∧
    (ReadBuffer.read (Internals.mk [7, 8, 0, 0] 1 2) 1 =
        some ((Internals.mk [7, 8, 0, 0] 1 2).drainCore 1) ∧
      ((Internals.mk [7, 8, 0, 0] 1 2).drainCore 1).2.length = min 1 1) := by
  have h := raw_append_drain_spec (Internals.mk [7, 8, 0, 0] 1 2) [5, 6, 7] 1
    (by decide) (by decide)
  exact ⟨⟨h.1.1, h.1.2.1⟩, ⟨h.2.1, h.2.2.1⟩⟩

/-! ## Claim C1 -/

theorem inv_advance_start (s : Internals) (d : Nat)
    (h2 : s.«end» ≤ s.buf.length) (hd : s.start + d ≤ s.«end») :
    (s.advance_start d).start ≤ (s.advance_start d).«end» ∧
    (s.advance_start d).«end» ≤ (s.advance_start d).buf.length ∧
    ((s.advance_start d).start = (s.advance_start d).«end» →
      (s.advance_start d).start = 0 ∧ (s.advance_start d).«end» = 0) := by
  simp only [Internals.advance_start]
  split
  · exact ⟨Nat.le_refl 0, Nat.zero_le _, fun _ => ⟨rfl, rfl⟩⟩
  · refine ⟨by simpa using hd, by simpa using h2, ?_⟩
    intro heq
    simp only at heq
    omega

theorem inv_step (s : Internals) (op : BufOp) (s' : Internals)
    (h1 : s.start ≤ s.«end») (h2 : s.«end» ≤ s.buf.length)
    (h3 : s.start = s.«end» → s.start = 0 ∧ s.«end» = 0)
    (hstep : stepOp s op = some s') :
    s'.start ≤ s'.«end» ∧ s'.«end» ≤ s'.buf.length ∧
    (s'.start = s'.«end» → s'.start = 0 ∧ s'.«end» = 0) := by
  cases op with
  | read_from chunk =>
    simp only [stepOp, ReadBuffer.read_from, if_pos h2, Option.map_some',
      Option.some_inj] at hstep
    subst hstep
    simp only [Internals.readFromCore]
    have hd : (chunk.take (s.buf.length - s.«end»)).length ≤ s.buf.length - s.«end» := by
      simp only [List.length_take]
      omega
    rw [setSegment_length _ _ _ (by omega)]
    refine ⟨by omega, by omega, ?_⟩
    intro heq
    by_cases hse : s.start = s.«end»
    · obtain ⟨ha, hb⟩ := h3 hse
      exact ⟨ha, by omega⟩
    · exact absurd heq (by omega)
  | write_to accepted =>
    simp only [stepOp, WriteBuffer.write_to, if_pos (And.intro h1 h2),
      Internals.writeToCore, Option.map_some', Option.some_inj] at hstep
    subst hstep
    exact inv_advance_start s _ h2 (by omega)
  | append input =>
    simp only [stepOp, WriteBuffer.write, if_pos h2, Internals.appendCore,
      Option.map_some', Option.some_inj] at hstep
    subst hstep
    dsimp only
    have hd : (input.take (min (s.buf.length - s.«end») input.length)).length =
        min (s.buf.length - s.«end») input.length := by
      simp only [List.length_take]
      omega
    rw [setSegment_length _ _ _ (by omega)]
    refine ⟨by omega, by omega, ?_⟩
    intro heq
    by_cases hse : s.start = s.«end»
    · obtain ⟨ha, hb⟩ := h3 hse
      exact ⟨ha, by omega⟩
    · exact absurd heq (by omega)
  | drain dstLen =>
    simp only [stepOp, ReadBuffer.read, if_pos (And.intro h1 h2),
      Internals.drainCore, Option.map_some', Option.some_inj] at hstep
    subst hstep
    have hpl : s.pending.length = s.«end» - s.start := pending_length s h1 h2
    exact inv_advance_start s _ h2 (by omega)

theorem reachable_inv (s : Internals) (h : Reachable s) :
    s.start ≤ s.«end» ∧ s.«end» ≤ s.buf.length ∧
    (s.start = s.«end» → s.start = 0 ∧ s.«end» = 0) := by
  induction h with
  | init cfg s h0 =>
    obtain ⟨hbuf, hstart, hend, hlen⟩ := build_from_spec cfg s h0
    refine ⟨by omega, by omega, fun heq => ⟨hstart, by omega⟩⟩
  | step s op s' hr hstep ih =>
    exact inv_step s op s' ih.1 ih.2.1 ih.2.2 hstep

/-- Claim C1: in every state reachable from a freshly constructed
buffer by `read_from`/`write_to`/append/drain operations, the cursors
satisfy `start ≤ end ≤ capacity`; whenever `start = end` both cursors
have been reset to 0 (so the next append fills from offset 0 with full
capacity reclaimed), making `is_empty ⇔ no pending bytes` and
`is_full ⇔ end = capacity` correct tests. -/
theorem buffer_reachable_invariant (s : Internals) (h : Reachable s) :
    s.start ≤ s.«end» ∧ s.«end» ≤ s.buf.length ∧
    (s.start = s.«end» → s.start = 0 ∧ s.«end» = 0) ∧
    (s.is_empty = true ↔ s.start = s.«end») ∧
    (s.is_full = true ↔ s.«end» = s.buf.length) := by
  obtain ⟨i1, i2, i3⟩ := reachable_inv s h
  refine ⟨i1, i2, i3, ?_, ?_⟩
  · simp only [Internals.is_empty, beq_iff_eq]
    exact ⟨fun h0 => by omega, fun hse => (i3 hse).2⟩
  · simp only [Internals.is_full, beq_iff_eq]

/-- Witness for C1: the state reached from an empty capacity-4 buffer
after appending two bytes. -/
theorem buffer_reachable_invariant_witness :
    (Internals.mk [7, 8, 0, 0] 0 2).start ≤ (Internals.mk [7, 8, 0, 0] 0 2).«end» ∧
    (Internals.mk [7, 8, 0, 0] 0 2).«end» ≤ (Internals.mk [7, 8, 0, 0] 0 2).buf.length ∧
    ((Internals.mk [7, 8, 0, 0] 0 2).start = (Internals.mk [7, 8, 0, 0] 0 2).«end» →
      (Internals.mk [7, 8, 0, 0] 0 2).start = 0 ∧
      (Internals.mk [7, 8, 0, 0] 0 2).«end» = 0) ∧
    ((Internals.mk [7, 8, 0, 0] 0 2).is_empty = true ↔
      (Internals.mk [7, 8, 0, 0] 0 2).start = (Internals.mk [7, 8, 0, 0] 0 2).«end») ∧
    ((Internals.mk [7, 8, 0, 0] 0 2).is_full = true ↔
      (Internals.mk [7, 8, 0, 0] 0 2).«end» =
        (Internals.mk [7, 8, 0, 0] 0 2).buf.length) :=
  buffer_reachable_invariant _
    (Reachable.step (Internals.mk [0, 0, 0, 0] 0 0) (BufOp.append [7, 8])
      (Internals.mk [7, 8, 0, 0] 0 2)
      (Reachable.init (BufCfg.with_capacity 4) _ (by decide))
      (by decide))

/-! ## Claim C2 -/

/-- Claim C2: at the plaintext-read stage of `ReadHalf::read`, zero
bytes from the engine without its clean-close signal becomes an
`UnexpectedEof` error; the engine's clean-close signal becomes ordinary
end-of-input `Ok 0`; any positive count passes through unchanged, as
does any other error.  Moreover this adjustment is exactly what the
full `ReadHalf::read` returns once its receive loop completes. -/
theorem read_plaintext_eof_policy :
    readResultAdjust (Except.ok 0) = Except.error ErrorKind.UnexpectedEof ∧
    (∀ n, 0 < n → readResultAdjust (Except.ok n) = Except.ok n) ∧
    readResultAdjust (Except.error ErrorKind.ConnectionAborted) = Except.ok 0 ∧
    (∀ e, e ≠ ErrorKind.ConnectionAborted →
      readResultAdjust (Except.error e) = Except.error e) ∧
    (∀ o fuel buf0 s, readLoop o fuel
        (SysState.lock { buf := buf0, locked := false, trace := [] }) =
        (s, LExit.done) →
      (ReadHalf.read o fuel buf0).2 =
        some (readResultAdjust
          (o.reader_read (s.emit EvKind.eReaderRead).clock))) := by
  refine ⟨rfl, ?_, rfl, ?_, ?_⟩
  · intro n hn
    match n, hn with
    | n + 1, _ => rfl
  · intro e he
    simp only [readResultAdjust, if_neg he]
  · intro o fuel buf0 s hloop
    simp only [ReadHalf.read, hloop]

/-- A quiescent collaborator: the engine never wants transport bytes
and yields no plaintext, the transport delivers and accepts nothing. -/
def oracleQuiet : Oracle where
  wants_read := fun _ => false
  transportRead := fun _ => Except.ok []
  read_tls := fun _ => 0
  process_new_packets := fun _ => false
  reader_read := fun _ => Except.ok 0
  wants_write := fun _ => false
  transportWrite := fun _ => Except.ok 0
  write_tls := fun _ => []
  writer_write := fun _ => Except.ok 0
  writer_flush := fun _ => none
  stream_shutdown := fun _ => none

/-- Witness for C2: positive count 3, a non-clean-close error, and a
run of `ReadHalf::read` whose engine never wants transport bytes. -/
theorem read_plaintext_eof_policy_witness :
    0 < 3 ∧ readResultAdjust (Except.ok 3) = Except.ok 3 ∧
    readResultAdjust (Except.error ErrorKind.Other) = Except.error ErrorKind.Other ∧
    (ReadHalf.read oracleQuiet 1 (Internals.mk [0] 0 0)).2 =
      some (Except.error ErrorKind.UnexpectedEof) := by
  refine ⟨by decide, read_plaintext_eof_policy.2.1 3 (by decide), ?_, ?_⟩
  · exact read_plaintext_eof_policy.2.2.2.1 ErrorKind.Other (by decide)
  · rw [read_plaintext_eof_policy.2.2.2.2 oracleQuiet 1 (Internals.mk [0] 0 0)
      (SysState.mk (Internals.mk [0] 0 0) true
        [(EvKind.lockAcq, false), (EvKind.eWantsRead, true)]) rfl]
    rfl

/-! ## Claim C3: lock-discipline lemmas -/

theorem lockDiscipline_app (tr l : List (EvKind × Bool)) :
    lockDiscipline (tr ++ l) = (lockDiscipline tr && lockDiscipline l) := by
  simp [lockDiscipline, List.all_append]

theorem readFill_ld (o : Oracle) (s : SysState)
    (hl : s.locked = true) (ht : lockDiscipline s.trace = true) :
    lockDiscipline (readFill o s).1.trace = true ∧
    ((readFill o s).2 = some none → (readFill o s).1.locked = true) ∧
    ((readFill o s).2 = none → (readFill o s).1.locked = true) := by
  simp only [readFill]
  split
  · rcases hr : o.transportRead ((s.unlock).emit EvKind.tRead).clock with e | chunk <;>
      simp only [hr]
    · refine ⟨?_, by simp, by simp⟩
      simp only [SysState.unlock, SysState.emit, hl, List.append_assoc,
        List.cons_append, List.nil_append]
      rw [lockDiscipline_app, ht]
      decide
    · split <;>
      · refine ⟨?_, fun _ => rfl, fun _ => rfl⟩
        simp only [SysState.unlock, SysState.emit, SysState.lock, hl,
          List.append_assoc, List.cons_append, List.nil_append]
        rw [lockDiscipline_app, ht]
        decide
  · exact ⟨ht, fun _ => hl, fun _ => hl⟩

theorem readBody_ld (o : Oracle) (s : SysState)
    (hl : s.locked = true) (ht : lockDiscipline s.trace = true) :
    lockDiscipline (readBody o s).1.trace = true ∧
    (readBody o s).1.locked = true := by
  simp only [readBody, SysState.emit]
  split <;>
  · refine ⟨?_, hl⟩
    simp only [hl, List.append_assoc, List.cons_append, List.nil_append]
    rw [lockDiscipline_app, ht]
    decide

theorem readLoop_ld (o : Oracle) : ∀ (fuel : Nat) (s : SysState),
    s.locked = true → lockDiscipline s.trace = true →
    lockDiscipline (readLoop o fuel s).1.trace = true ∧
    ((readLoop o fuel s).2 = LExit.done → (readLoop o fuel s).1.locked = true) := by
  intro fuel
  induction fuel with
  | zero =>
    intro s hl ht
    exact ⟨ht, by simp [readLoop]⟩
  | succ fuel ih =>
    intro s hl ht
    have hl1 : (s.emit EvKind.eWantsRead).locked = true := hl
    have ht1 : lockDiscipline (s.emit EvKind.eWantsRead).trace = true := by
      simp only [SysState.emit, hl]
      rw [lockDiscipline_app, ht]
      decide
    simp only [readLoop]
    split
    · obtain ⟨hf1, hf2, hf3⟩ := readFill_ld o (s.emit EvKind.eWantsRead) hl1 ht1
      rcases hfr : readFill o (s.emit EvKind.eWantsRead) with ⟨s2, r⟩
      rw [hfr] at hf1 hf2 hf3
      rcases r with _ | (_ | e)
      · dsimp only
        obtain ⟨hb1, hb2⟩ := readBody_ld o s2 (hf3 rfl) hf1
        rcases hbr : readBody o s2 with ⟨s3, rb⟩
        rw [hbr] at hb1 hb2
        rcases rb with _ | e
        · exact ih s3 hb2 hb1
        · exact ⟨hb1, by simp⟩
      · exact ⟨hf1, fun _ => hf2 rfl⟩
      · exact ⟨hf1, by simp⟩
    · exact ⟨ht1, fun _ => hl1⟩

theorem emit_ld (s : SysState) (k : EvKind) (ht : lockDiscipline s.trace = true)
    (hk : evOK (k, s.locked) = true) :
    lockDiscipline (s.emit k).trace = true := by
  simp only [SysState.emit]
  rw [lockDiscipline_app, ht]
  simpa [lockDiscipline] using hk

theorem unlockIf_ld (s : SysState) (ht : lockDiscipline s.trace = true) :
    lockDiscipline s.unlockIf.trace = true := by
  simp only [SysState.unlockIf]
  split
  · simp only [SysState.unlock, SysState.emit]
    rw [lockDiscipline_app, ht]
    simp [lockDiscipline, evOK, EvKind.isTransportCall, EvKind.isEngineOp]
  · exact ht

theorem evOK_tShutdown (how : Shutdown) (b : Bool) :
    evOK (EvKind.tShutdown how, b) = true := by
  cases b <;> rfl

theorem ReadHalf_read_ld (o : Oracle) (fuel : Nat) (buf0 : Internals) :
    lockDiscipline (ReadHalf.read o fuel buf0).1.trace = true := by
  simp only [ReadHalf.read]
  have h0 : lockDiscipline
      (SysState.lock { buf := buf0, locked := false, trace := [] }).trace = true := rfl
  obtain ⟨hl1, hl2⟩ :=
    readLoop_ld o fuel (SysState.lock { buf := buf0, locked := false, trace := [] }) rfl h0
  rcases hr : readLoop o fuel (SysState.lock { buf := buf0, locked := false, trace := [] })
    with ⟨s, ex⟩
  rw [hr] at hl1 hl2
  rcases ex with _ | _ | e
  · dsimp only
    refine unlockIf_ld _ (emit_ld s EvKind.eReaderRead hl1 ?_)
    rw [hl2 rfl]
    decide
  · exact hl1
  · exact unlockIf_ld _ hl1

theorem fullLoop_ld (o : Oracle) : ∀ (fuel : Nat) (s : SysState),
    s.locked = true → lockDiscipline s.trace = true →
    lockDiscipline (fullLoop o fuel s).1.trace = true ∧
    ((fullLoop o fuel s).2 = LExit.done → (fullLoop o fuel s).1.locked = true) := by
  intro fuel
  induction fuel with
  | zero =>
    intro s hl ht
    exact ⟨ht, by simp [fullLoop]⟩
  | succ fuel ih =>
    intro s hl ht
    simp only [fullLoop]
    split
    · have ht1 : lockDiscipline ((s.unlock).emit EvKind.tWrite).trace = true := by
        simp only [SysState.unlock, SysState.emit, hl, List.append_assoc,
          List.cons_append, List.nil_append]
        rw [lockDiscipline_app, ht]
        decide
      rcases hw : o.transportWrite (((s.unlock).emit EvKind.tWrite)).clock with e | n
      · exact ⟨ht1, by simp⟩
      · refine ih _ rfl ?_
        simp only [SysState.lock, SysState.emit, SysState.unlock, hl,
          List.append_assoc, List.cons_append, List.nil_append]
        rw [lockDiscipline_app, ht]
        decide
    · exact ⟨ht, fun _ => hl⟩

theorem wants_write_loop_ld (o : Oracle) : ∀ (fuel : Nat) (s : SysState),
    s.locked = true → lockDiscipline s.trace = true →
    lockDiscipline (wants_write_loop o fuel s).1.trace = true ∧
    ((wants_write_loop o fuel s).2 = LExit.done →
      (wants_write_loop o fuel s).1.locked = true) := by
  intro fuel
  induction fuel with
  | zero =>
    intro s hl ht
    exact ⟨ht, by simp [wants_write_loop]⟩
  | succ fuel ih =>
    intro s hl ht
    have hl1 : (s.emit EvKind.eWantsWrite).locked = true := hl
    have ht1 : lockDiscipline (s.emit EvKind.eWantsWrite).trace = true :=
      emit_ld s EvKind.eWantsWrite ht (by rw [hl]; decide)
    simp only [wants_write_loop]
    split
    · obtain ⟨hg1, hg2⟩ := fullLoop_ld o (fuel + 1) (s.emit EvKind.eWantsWrite) hl1 ht1
      rcases hg : fullLoop o (fuel + 1) (s.emit EvKind.eWantsWrite) with ⟨s2, ex⟩
      rw [hg] at hg1 hg2
      rcases ex with _ | _ | e
      · dsimp only
        refine ih _ ?_ ?_
        · exact hg2 rfl
        · exact emit_ld s2 EvKind.eWriteTls hg1 (by rw [hg2 rfl]; decide)
      · exact ⟨hg1, by simp⟩
      · exact ⟨hg1, by simp⟩
    · exact ⟨ht1, fun _ => hl1⟩

theorem finalDrain_ld (o : Oracle) : ∀ (fuel : Nat) (s : SysState),
    s.locked = false → lockDiscipline s.trace = true →
    lockDiscipline (finalDrain o fuel s).1.trace = true := by
  intro fuel
  induction fuel with
  | zero =>
    intro s _ ht
    exact ht
  | succ fuel ih =>
    intro s hl ht
    simp only [finalDrain]
    split
    · exact ht
    · have ht1 : lockDiscipline (s.emit EvKind.tWrite).trace = true :=
        emit_ld s EvKind.tWrite ht (by rw [hl]; decide)
      rcases hw : o.transportWrite ((s.emit EvKind.tWrite)).clock with e | n
      · exact ht1
      · exact ih _ hl ht1

theorem flushFn_ld (o : Oracle) (fuel : Nat) (s : SysState)
    (hl : s.locked = true) (ht : lockDiscipline s.trace = true) :
    lockDiscipline (flushFn o fuel s).1.trace = true := by
  have hl1 : (s.emit EvKind.eWriterFlush).locked = true := hl
  have ht1 : lockDiscipline (s.emit EvKind.eWriterFlush).trace = true :=
    emit_ld s EvKind.eWriterFlush ht (by rw [hl]; decide)
  simp only [flushFn]
  rcases hf : o.writer_flush ((s.emit EvKind.eWriterFlush)).clock with _ | e
  · obtain ⟨hg1, hg2⟩ := wants_write_loop_ld o fuel (s.emit EvKind.eWriterFlush) hl1 ht1
    rcases hg : wants_write_loop o fuel (s.emit EvKind.eWriterFlush) with ⟨s2, ex⟩
    rw [hg] at hg1 hg2
    rcases ex with _ | _ | e
    · dsimp only
      refine finalDrain_ld o fuel s2.unlock rfl ?_
      simp only [SysState.unlock, SysState.emit]
      rw [lockDiscipline_app, hg1]
      simp [lockDiscipline, evOK, EvKind.isTransportCall, EvKind.isEngineOp]
    · exact hg1
    · exact unlockIf_ld _ hg1
  · exact unlockIf_ld _ ht1

theorem WriteHalf_write_ld (o : Oracle) (fuel : Nat) (buf0 : Internals) :
    lockDiscipline (WriteHalf.write o fuel buf0).1.trace = true := by
  simp only [WriteHalf.write]
  have h0 : lockDiscipline
      (SysState.lock { buf := buf0, locked := false, trace := [] }).trace = true := rfl
  obtain ⟨hl1, hl2⟩ := wants_write_loop_ld o fuel
    (SysState.lock { buf := buf0, locked := false, trace := [] }) rfl h0
  rcases hr : wants_write_loop o fuel
      (SysState.lock { buf := buf0, locked := false, trace := [] }) with ⟨s, ex⟩
  rw [hr] at hl1 hl2
  rcases ex with _ | _ | e
  · dsimp only
    refine unlockIf_ld _ (emit_ld s EvKind.eWriterWrite hl1 ?_)
    rw [hl2 rfl]
    decide
  · exact hl1
  · exact unlockIf_ld _ hl1

theorem WriteHalf_flush_ld (o : Oracle) (fuel : Nat) (buf0 : Internals) :
    lockDiscipline (WriteHalf.flush o fuel buf0).1.trace = true := by
  simp only [WriteHalf.flush]
  exact flushFn_ld o fuel _ rfl rfl

theorem WriteHalf_shutdown_ld (o : Oracle) (fuel : Nat) (how : Shutdown)
    (buf0 : Internals) :
    lockDiscipline (WriteHalf.shutdown o fuel how buf0).1.trace = true := by
  simp only [WriteHalf.shutdown]
  split
  · exact rfl
  · have h2 : lockDiscipline
        (((SysState.mk buf0 false []).lock).emit EvKind.eCloseNotify).trace = true := rfl
    have h2l : (((SysState.mk buf0 false []).lock).emit EvKind.eCloseNotify).locked
        = true := rfl
    have h3 := flushFn_ld o fuel
      (((SysState.mk buf0 false []).lock).emit EvKind.eCloseNotify) h2l h2
    rcases hf : flushFn o fuel
        (((SysState.mk buf0 false []).lock).emit EvKind.eCloseNotify) with ⟨s3, res⟩
    rw [hf] at h3
    rcases res with _ | res
    · exact h3
    · dsimp only
      have h4 : lockDiscipline (s3.emit (EvKind.tShutdown how)).trace = true :=
        emit_ld s3 _ h3 (evOK_tShutdown how s3.locked)
      rcases hs : o.stream_shutdown ((s3.emit (EvKind.tShutdown how))).clock with _ | e
      · exact h4
      · exact h4

/-- Claim C3: in every protocol loop of both halves — the receive loop
of `read`, the drain loop shared by `write`/`flush`/`shutdown`, and
`flush`'s final physical drain — the engine lock is never held during a
blocking transport `read_from`/`write_to` call, and it is held again
for every engine interaction that follows: over all collaborator
behaviours, fuel bounds, directions and starting buffers, every trace
satisfies the lock discipline. -/
theorem transport_io_lock_discipline (o : Oracle) (fuel : Nat) (how : Shutdown)
    (buf0 : Internals) :
    lockDiscipline (ReadHalf.read o fuel buf0).1.trace = true ∧
    lockDiscipline (WriteHalf.write o fuel buf0).1.trace = true ∧
    lockDiscipline (WriteHalf.flush o fuel buf0).1.trace = true ∧
    lockDiscipline (WriteHalf.shutdown o fuel how buf0).1.trace = true :=
  ⟨ReadHalf_read_ld o fuel buf0, WriteHalf_write_ld o fuel buf0,
   WriteHalf_flush_ld o fuel buf0, WriteHalf_shutdown_ld o fuel how buf0⟩

/-! ## Claim C8 -/

/-- A trace with no engine interaction at all. -/
def engineUntouched (tr : List (EvKind × Bool)) : Bool :=
  tr.all fun p => !p.1.isEngineOp

/-- Counterexample for C8: `ReadHalf::shutdown` called with the `Write`
direction forwards `Write` to the transport, not the read direction as
the claim states. -/
theorem readhalf_shutdown_direction_cex :
    (ReadHalf.shutdown oracleQuiet Shutdown.Write (Internals.mk [0] 0 0)).1.trace =
      [(EvKind.tShutdown Shutdown.Write, false)] ∧
    (ReadHalf.shutdown oracleQuiet Shutdown.Write (Internals.mk [0] 0 0)).1.trace ≠
      [(EvKind.tShutdown Shutdown.Read, false)] := by
  decide

/-- Claim C8 (amended): `ReadHalf::shutdown` forwards the *requested*
direction directly to the transport's shutdown primitive (its single
interaction), leaves the engine untouched (no engine interaction, no
lock acquisition) and changes no staging-buffer state; its result is
the transport's. -/
theorem readhalf_shutdown_forwards (o : Oracle) (how : Shutdown) (buf0 : Internals) :
    (ReadHalf.shutdown o how buf0).1.trace = [(EvKind.tShutdown how, false)] ∧
    (ReadHalf.shutdown o how buf0).1.buf = buf0 ∧
    (ReadHalf.shutdown o how buf0).1.locked = false ∧
    engineUntouched (ReadHalf.shutdown o how buf0).1.trace = true ∧
    (ReadHalf.shutdown o how buf0).2 = o.stream_shutdown 1 := by
  refine ⟨rfl, rfl, rfl, ?_, rfl⟩
  simp [ReadHalf.shutdown, engineUntouched, SysState.emit, EvKind.isEngineOp]

/-! ## Claim C4 -/

/-- A collaborator whose engine-flush fails with `Other` and whose
transport shutdown fails with `UnexpectedEof`. -/
def oracleFlushFail : Oracle where
  wants_read := fun _ => false
  transportRead := fun _ => Except.ok []
  read_tls := fun _ => 0
  process_new_packets := fun _ => false
  reader_read := fun _ => Except.ok 0
  wants_write := fun _ => false
  transportWrite := fun _ => Except.ok 0
  write_tls := fun _ => []
  writer_write := fun _ => Except.ok 0
  writer_flush := fun _ => some ErrorKind.Other
  stream_shutdown := fun _ => some ErrorKind.UnexpectedEof

/-- Like `oracleFlushFail` but the transport shutdown succeeds. -/
def oracleFlushFailOnly : Oracle :=
  { oracleFlushFail with stream_shutdown := fun _ => none }

/-- Counterexample for C4: when the inline flush fails with `Other` and
the transport shutdown itself fails with `UnexpectedEof`, the caller
receives the transport shutdown's error, not the flush error — the
flush error is suppressed in that sub-case. -/
theorem writehalf_shutdown_error_precedence_cex :
    (flushFn oracleFlushFail 5
        (((SysState.mk (Internals.mk [0] 0 0) false []).lock).emit
          EvKind.eCloseNotify)).2 = some (some ErrorKind.Other) ∧
    (WriteHalf.shutdown oracleFlushFail 5 Shutdown.Write (Internals.mk [0] 0 0)).2 =
      some (some ErrorKind.UnexpectedEof) ∧
    some (some ErrorKind.UnexpectedEof) ≠ some (some ErrorKind.Other) := by
  decide

/-- Claim C4 (amended): for any non-read direction, `WriteHalf::shutdown`
acquires the lock, instructs the engine to send close-notify, runs the
flush logic, and — whenever that flush logic completes — always
attempts the transport shutdown for the requested direction afterwards;
if the transport shutdown succeeds the flush outcome (error included)
is returned to the caller, and if the transport shutdown itself fails
its error is returned in place of the flush outcome. -/
theorem writehalf_shutdown_spec (o : Oracle) (fuel : Nat) (how : Shutdown)
    (buf0 : Internals) (s3 : SysState) (res : Option ErrorKind)
    (hhow : how ≠ Shutdown.Read)
    (hflush : flushFn o fuel
      (((SysState.mk buf0 false []).lock).emit EvKind.eCloseNotify) = (s3, some res)) :
    (WriteHalf.shutdown o fuel how buf0).1.trace =
      s3.trace ++ [(EvKind.tShutdown how, s3.locked)] ∧
    (o.stream_shutdown (s3.clock + 1) = none →
      (WriteHalf.shutdown o fuel how buf0).2 = some res) ∧
    (∀ e, o.stream_shutdown (s3.clock + 1) = some e →
      (WriteHalf.shutdown o fuel how buf0).2 = some (some e)) := by
  have hclock : (s3.emit (EvKind.tShutdown how)).clock = s3.clock + 1 := by
    simp [SysState.emit, SysState.clock]
  simp only [WriteHalf.shutdown, if_neg hhow, hflush]
  rcases hs : o.stream_shutdown ((s3.emit (EvKind.tShutdown how))).clock with _ | e
  · refine ⟨rfl, fun _ => rfl, ?_⟩
    intro e he
    rw [hclock, he] at hs
    cases hs
  · refine ⟨rfl, ?_, ?_⟩
    · intro hnone
      rw [hclock, hnone] at hs
      cases hs
    · intro e2 he2
      rw [hclock, he2] at hs
      injection hs with h
      subst h
      rfl

/-- Witness for C4: the flush logic fails with `Other`, the transport
shutdown succeeds, and the caller receives `Other`; the transport
shutdown event is the last event of the trace. -/
theorem writehalf_shutdown_spec_witness :
    (WriteHalf.shutdown oracleFlushFailOnly 5 Shutdown.Write (Internals.mk [0] 0 0)).1.trace =
      [(EvKind.lockAcq, false), (EvKind.eCloseNotify, true), (EvKind.eWriterFlush, true),
       (EvKind.lockRel, true)] ++ [(EvKind.tShutdown Shutdown.Write, false)] ∧
    (WriteHalf.shutdown oracleFlushFailOnly 5 Shutdown.Write (Internals.mk [0] 0 0)).2 =
      some (some ErrorKind.Other) := by
  have h := writehalf_shutdown_spec oracleFlushFailOnly 5 Shutdown.Write
    (Internals.mk [0] 0 0)
    (SysState.mk (Internals.mk [0] 0 0) false
      [(EvKind.lockAcq, false), (EvKind.eCloseNotify, true), (EvKind.eWriterFlush, true),
       (EvKind.lockRel, true)]) (some ErrorKind.Other) (by decide) (by decide)
  exact ⟨h.1, h.2.1 (by decide)⟩

end RustlsSplit
